import Mathlib

set_option autoImplicit false

/-!
Shallow embedding of the A.L.F.R.E.D. coordinator core
(`src/coordinator/core/coordinator.py` together with the data model in
`src/shared/models.py`).

The coordinator's agent directory is a Python `dict` keyed by agent id;
since Python dicts preserve insertion order (and an update of an existing
key keeps its position), we model the directory as a `List AgentInfo`
whose order is insertion order, with ids unique.

Timestamps (`datetime`) are modelled as integers.  Network effects are
modelled as explicit outcome parameters: the translator's behaviour, the
HTTP dispatch outcome, a per-agent per-attempt health-probe outcome and a
per-candidate capability-probe outcome are all inputs of the embedded
functions, so every code path of the source is a value-level branch here.

String operations of the source (`str.split`, `str.strip`, `str.lower`,
`int(...)` on a port string) are embedded as explicit structural functions
over the character list of the string, so that every definition evaluates
by kernel reduction.
-/

namespace Alfred

/-- Python value as produced by `json.loads` on the translator output.
`parse_command` returns such a value unchanged on a successful parse, so
the rest of the pipeline has to cope with arbitrary JSON shapes. -/
inductive PyVal where
  | null
  | bool (b : Bool)
  | int (n : Int)
  | str (s : String)
  | list (xs : List PyVal)
  | dict (fields : List (String × PyVal))
deriving Repr, Inhabited

/-- `AgentInfo` from `src/shared/models.py`: identity and state of one agent. -/
structure AgentInfo where
  id : String
  name : String
  os_type : String
  capabilities : List String
  permissions : List String
  host : String
  port : Nat
  last_seen : Int
  is_healthy : Bool := true
deriving Repr, DecidableEq

/-- `CommandResult` from `src/shared/models.py`. -/
structure CommandResult where
  success : Bool
  output : Option String := none
  error : Option String := none
  execution_time_ms : Int
  command : String
  agent_id : String
deriving Repr, DecidableEq

/-- Python `str.split(c)` for a single-character separator, on character
lists: `"a,b".split(',') = ["a","b"]`, `"".split(',') = [""]`. -/
def split_on_char (c : Char) : List Char → List (List Char)
  | [] => [[]]
  | x :: xs =>
    let r := split_on_char c xs
    if x = c then [] :: r
    else
      match r with
      | [] => [[x]]
      | g :: gs => (x :: g) :: gs

/-- Python `str.split(c)` on strings. -/
def py_split (s : String) (c : Char) : List String :=
  (split_on_char c s.data).map (fun cs => String.mk cs)

/-- Python `str.strip()`: remove leading and trailing whitespace. -/
def py_strip (s : String) : String :=
  String.mk (((s.data.dropWhile Char.isWhitespace).reverse.dropWhile Char.isWhitespace).reverse)

/-- Python `str.lower()` (ASCII case folding, which is all the source
compares: OS names and the literal "true"). -/
def py_lower (s : String) : String :=
  String.mk (s.data.map Char.toLower)

/-- Python `int(s)` restricted to non-negative decimal digit strings (the
only shape of a port string discovery ever feeds it); any other string is
a `ValueError`, modelled as `none`. -/
def parse_nat (cs : List Char) : Option Nat :=
  if cs.isEmpty then none
  else
    cs.foldl
      (fun acc c =>
        match acc with
        | none => none
        | some n => if c.isDigit then some (n * 10 + (c.toNat - 48)) else none)
      (some 0)

/-- `Coordinator.register_agent`: insert or replace by `id`.  A Python
dict update of an existing key keeps the entry's position, so replacement
is in place; a fresh key is appended. -/
def register_agent (agents : List AgentInfo) (a : AgentInfo) : List AgentInfo :=
  if agents.any (fun x => x.id == a.id) then
    agents.map (fun x => if x.id == a.id then a else x)
  else
    agents ++ [a]

/-- Python `dict.get(k, d)` on the field list of a JSON object. -/
def dict_get (fs : List (String × PyVal)) (k : String) (d : PyVal) : PyVal :=
  (fs.lookup k).getD d

/-- Python `v != "lit"` where `v` is an arbitrary JSON value: values of a
type other than `str` are never equal to a string literal, so the
comparison is `true` for them. -/
def py_ne_lit (v : PyVal) (s : String) : Bool :=
  match v with
  | .str t => t != s
  | _ => true

/-- Python `v[k]` on a JSON value: `KeyError` if the key is absent,
`TypeError`-style failure if `v` is not an object.  Either error escapes
the caller as an exception, hence `Except`. -/
def py_index (v : PyVal) (k : String) : Except String PyVal :=
  match v with
  | .dict fs =>
    match fs.lookup k with
    | some x => .ok x
    | none => .error ("KeyError: " ++ k)
  | _ => .error "AttributeError"

/-- `Coordinator.select_agent`.  The source first evaluates
`parsed_command.get("target_os", "any")` (an `AttributeError` escapes if
the parsed value is not a dict), filters the directory to healthy agents,
returns `None` if that set is empty, and otherwise prefers the first
case-insensitive OS match when `target_os != "any"`, falling back to the
first healthy agent.  A non-string `target_os` raises `AttributeError`
at `target_os.lower()` once the OS comparison is reached.
`select_from_healthy` is the part of the body after the healthy filter
has been computed, abstracted over that list. -/
def select_from_healthy (healthy : List AgentInfo) (target_os : PyVal) :
    Except String (Option AgentInfo) :=
  if healthy.isEmpty then
    .ok none
  else if py_ne_lit target_os "any" then
    match target_os with
    | .str t =>
      match healthy.filter (fun a => py_lower a.os_type == py_lower t) with
      | m :: _ => .ok (some m)
      | [] => .ok healthy.head?
    | _ => .error "AttributeError"
  else
    .ok healthy.head?

def select_agent (agents : List AgentInfo) (parsed : PyVal) :
    Except String (Option AgentInfo) :=
  match parsed with
  | .dict fs =>
    select_from_healthy (agents.filter (fun a => a.is_healthy))
      (dict_get fs "target_os" (.str "any"))
  | _ => .error "AttributeError"

/-- Reference agent-selection policy, written from the specification's
words: restrict to healthy agents; none if that set is empty; for a
specific `targetOs` return the first case-insensitive OS match in
directory insertion order, else the first healthy agent; for "any"
return the first healthy agent. -/
def select_reference_from (healthy : List AgentInfo) (targetOs : String) :
    Option AgentInfo :=
  match healthy with
  | [] => none
  | h :: _ =>
    if targetOs ≠ "any" then
      match healthy.filter (fun a => py_lower a.os_type == py_lower targetOs) with
      | m :: _ => some m
      | [] => some h
    else
      some h

/-- Reference selection on a full directory snapshot: filter to the
healthy agents and apply the reference policy. -/
def select_reference (agents : List AgentInfo) (targetOs : String) : Option AgentInfo :=
  select_reference_from (agents.filter (fun a => a.is_healthy)) targetOs

/-- Outcome of the external translator call made by
`Coordinator.parse_command`: the API call may raise, the model may return
an empty string, a non-JSON string, or a string whose JSON parse yields
an arbitrary value. -/
inductive TranslatorOutcome where
  | apiError
  | emptyResponse
  | malformed
  | success (v : PyVal)

/-- The fallback dict `parse_command` builds when the translator output
cannot be used. -/
def fallback_parse (userInput : String) (desc : String) : PyVal :=
  .dict [("action", .str "unknown"), ("target_os", .str "any"),
         ("command", .str userInput), ("description", .str desc)]

/-- `Coordinator.parse_command`: a successful JSON parse is returned
verbatim; a `json.JSONDecodeError` falls back with description
"Direct command execution (JSON parse failed)"; an empty response (which
raises `ValueError` into the generic handler) and any API error fall back
with description "Direct command execution".  The function itself never
raises. -/
def parse_command (userInput : String) : TranslatorOutcome → PyVal
  | .success v => v
  | .malformed => fallback_parse userInput "Direct command execution (JSON parse failed)"
  | .emptyResponse => fallback_parse userInput "Direct command execution"
  | .apiError => fallback_parse userInput "Direct command execution"

/-- Outcome of the HTTP dispatch `POST /execute` to the selected agent:
either a response with a status, a body whose JSON-decode-and-validate
into `CommandResult` may fail (carrying the exception text), and the raw
text used for non-200 statuses; or a transport-level exception. -/
inductive DispatchOutcome where
  | response (status : Nat) (body : Except String CommandResult) (text : String)
  | exc (msg : String)

/-- One entry of `Coordinator.command_history`. -/
structure HistoryEntry where
  timestamp : Int
  user_input : String
  parsed_command : PyVal
  agent_used : String
  result : CommandResult

/-- The coordinator state touched by `execute_command`. -/
structure ExecState where
  agents : List AgentInfo
  command_history : List HistoryEntry

/-- `Coordinator.execute_command`.  The translator outcome, the dispatch
outcome and the current time are explicit inputs.  An uncaught Python
exception is modelled as `.error`: the source evaluates
`parsed_command["command"]` (and, inside `select_agent`,
`parsed_command.get(...)` and `target_os.lower()`) outside any
`try`/`except`, so those are the only escaping paths; everything inside
the dispatch `try` block is caught and synthesised into a failure
`CommandResult`. -/
def execute_command (userInput : String) (outcome : TranslatorOutcome)
    (dispatch : DispatchOutcome) (now : Int) (st : ExecState) :
    Except String (CommandResult × ExecState) :=
  let parsed := parse_command userInput outcome
  match select_agent st.agents parsed with
  | .error e => .error e
  | .ok none =>
    .ok ({ success := false, error := some "No healthy agents available",
           execution_time_ms := 0, command := userInput, agent_id := "none" }, st)
  | .ok (some agent) =>
    match py_index parsed "command" with
    | .error e => .error e
    | .ok _cmd =>
      match dispatch with
      | .response status body text =>
        if status = 200 then
          match body with
          | .ok result =>
            .ok (result,
              { st with
                command_history := st.command_history ++
                  [{ timestamp := now, user_input := userInput,
                     parsed_command := parsed, agent_used := agent.name,
                     result := result }] })
          | .error m =>
            .ok ({ success := false,
                   error := some ("Failed to communicate with agent: " ++ m),
                   execution_time_ms := 0, command := userInput,
                   agent_id := agent.id }, st)
        else
          .ok ({ success := false,
                 error := some ("Agent returned status " ++ toString status ++ ": " ++ text),
                 execution_time_ms := 0, command := userInput,
                 agent_id := agent.id }, st)
      | .exc m =>
        .ok ({ success := false,
               error := some ("Failed to communicate with agent: " ++ m),
               execution_time_ms := 0, command := userInput,
               agent_id := agent.id }, st)

/-- Whether the dispatch outcome is an HTTP 200 whose body parses into a
`CommandResult` — the only path on which the source appends to
`command_history`. -/
def dispatch_ok : DispatchOutcome → Bool
  | .response status body _ =>
    status == 200 &&
      (match body with
       | .ok _ => true
       | .error _ => false)
  | .exc _ => false

/-- Whether agent selection for this call yields an agent. -/
def selection_succeeded (userInput : String) (outcome : TranslatorOutcome)
    (st : ExecState) : Bool :=
  match select_agent st.agents (parse_command userInput outcome) with
  | .ok (some _) => true
  | _ => false

/-- Outcome of one health-probe attempt against an agent's `/health`
endpoint.  The source runs `health_data = await resp.json()` on a 200
response *before* marking the agent healthy, so a 200 whose body cannot
be decoded as JSON raises inside the per-attempt `try` and counts as a
failed attempt, exactly like a non-200 status or a
timeout / connection error.  Hence four cases: HTTP 200 with a
JSON-decodable body, HTTP 200 with an undecodable body, a non-200
status, and an exception. -/
inductive AttemptResult where
  | ok200
  | ok200BadBody
  | non200 (status : Nat)
  | exc
deriving Repr, DecidableEq

/-- Whether an attempt outcome is the success the retry loop of
`health_check_agents` short-circuits on: HTTP 200 *and* `resp.json()`
succeeding.  A 200 with an undecodable body is not a success — the
decode error is caught at the per-attempt handler and the loop moves on
to the next attempt. -/
def attempt_ok : AttemptResult → Bool
  | .ok200 => true
  | _ => false

/-- Whether the attempt's HTTP response had status 200, regardless of
whether its body could be decoded.  This is what the literal claim
"the first HTTP-200 response marks the agent healthy" quantifies over,
and it differs from `attempt_ok` exactly on `ok200BadBody`. -/
def attempt_http200 : AttemptResult → Bool
  | .ok200 => true
  | .ok200BadBody => true
  | _ => false

/-- Index of the first successful attempt among `fuel` attempts starting
at index `start`, mirroring `for attempt in range(3)` with `break` on
HTTP 200. -/
def first_success_within (f : Nat → AttemptResult) : Nat → Nat → Option Nat
  | _, 0 => none
  | i, fuel + 1 =>
    if attempt_ok (f i) then some i else first_success_within f (i + 1) fuel

/-- Number of health-probe attempts the retry loop actually performs for
one agent (it short-circuits at the first HTTP 200). -/
def attempts_made (f : Nat → AttemptResult) : Nat :=
  match first_success_within f 0 3 with
  | some i => i + 1
  | none => 3

/-- Per-agent body of `Coordinator.health_check_agents`: the first HTTP
200 within 3 attempts marks the agent healthy and refreshes `last_seen`
to now; if all 3 attempts fail the agent is marked unhealthy and
`last_seen` is untouched. -/
def check_agent (f : Nat → AttemptResult) (now : Int) (a : AgentInfo) : AgentInfo :=
  match first_success_within f 0 3 with
  | some _ => { a with is_healthy := true, last_seen := now }
  | none => { a with is_healthy := false }

/-- One full health sweep: every registered agent is checked against its
own attempt outcomes, independently of the other agents. -/
def health_sweep (att : String → Nat → AttemptResult) (now : Int)
    (agents : List AgentInfo) : List AgentInfo :=
  agents.map (fun a => check_agent (att a.id) now a)

/-- The coordinator state touched by `health_check_agents`:
the directory and `_last_health_check`. -/
structure HealthState where
  agents : List AgentInfo
  last_health_check : Int

/-- `Coordinator.health_check_agents`: unless forced, a call fewer than
10 seconds after the start of the last sweep returns immediately;
otherwise `_last_health_check` is set to now and every agent is swept. -/
def health_check_agents (force : Bool) (now : Int)
    (att : String → Nat → AttemptResult) (st : HealthState) : HealthState :=
  if force = false ∧ now - st.last_health_check < 10 then
    st
  else
    { agents := health_sweep att now st.agents, last_health_check := now }

/-- The environment variables `discover_agents` consults.  Python's
`os.getenv` yields `None` or a string. -/
structure Env where
  agent_discovery_hosts : Option String := none
  agent_network_config : Option String := none
  agent_use_broadcast : Option String := none
  agent_scan_network : Option String := none

/-- `discovery_settings` of the discovery configuration, with the
defaults `_load_discovery_config` falls back to. -/
structure DiscoverySettings where
  use_broadcast : Bool := true
  scan_network : Bool := false
  broadcast_port : Nat := 5099
  scan_timeout : Nat := 3
  manual_hosts : List String := []

/-- The discovery configuration: settings plus named network configs. -/
structure DiscoveryConfig where
  discovery_settings : DiscoverySettings := {}
  network_configs : List (String × List String) := []

/-- Python truthiness of an `os.getenv` result: `None` and the empty
string are falsy. -/
def env_truthy : Option String → Bool
  | none => false
  | some s => !(s == "")

/-- Python `str(b)` for a bool. -/
def py_str_of_bool : Bool → String
  | true => "True"
  | false => "False"

/-- The source's boolean-setting resolution:
`str(env if env is not None else config).lower() == 'true'`. -/
def resolve_bool_setting (envVal : Option String) (cfgVal : Bool) : Bool :=
  py_lower (match envVal with
            | some s => s
            | none => py_str_of_bool cfgVal) == "true"

/-- Merge broadcast results into the manual host list, skipping hosts
already present (`if bcast_host not in host_range`). -/
def dedup_merge (base : List String) (extra : List String) : List String :=
  extra.foldl (fun acc h => if h ∈ acc then acc else acc ++ [h]) base

/-- The fixed localhost fallback candidate list. -/
def default_localhost_targets : List String :=
  ["localhost:5001", "localhost:5002", "127.0.0.1:5001", "127.0.0.1:5002"]

/-- Scan targets: ports 5001/5002/5003 on each subnet IP. -/
def scan_targets (ips : List String) : List String :=
  ips.foldl (fun acc ip => acc ++ [ip ++ ":5001", ip ++ ":5002", ip ++ ":5003"]) []

/-- Candidate resolution of `Coordinator.discover_agents`
(`if not host_range: ...` down to the localhost fallback).  The broadcast
replies and the local subnet IPs are explicit inputs.  An explicitly
passed host range that is `None` or empty (`if not host_range`) triggers
the full resolution chain: environment host list, then named network
config, then manual hosts merged with broadcast results, then subnet
scan, then the localhost fallback. -/
def resolve_candidates (env : Env) (config : DiscoveryConfig)
    (broadcast_hosts : List String) (scan_ips : List String)
    (host_range : Option (List String)) : List String :=
  let given := host_range.getD []
  if given.isEmpty then
    if env_truthy env.agent_discovery_hosts then
      (py_split (env.agent_discovery_hosts.getD "") ',').map py_strip
    else if env_truthy env.agent_network_config &&
        (config.network_configs.lookup (env.agent_network_config.getD "")).isSome then
      (config.network_configs.lookup (env.agent_network_config.getD "")).getD []
    else
      let ds := config.discovery_settings
      let use_broadcast := resolve_bool_setting env.agent_use_broadcast ds.use_broadcast
      let base := ds.manual_hosts
      let withBroadcast := if use_broadcast then dedup_merge base broadcast_hosts else base
      if withBroadcast.isEmpty then
        if resolve_bool_setting env.agent_scan_network ds.scan_network then
          scan_targets scan_ips
        else
          default_localhost_targets
      else
        withBroadcast
  else
    given

/-- Outcome of the capability probe `GET /capabilities` against one
candidate: HTTP 200 with a body that parses into agent-descriptor fields
(carried as an `AgentInfo` holding the agent's self-reported values), or
anything else (non-200, timeout, connection error, unparseable body) —
all of which `check_host` treats as "not found". -/
inductive ProbeOutcome where
  | success (data : AgentInfo)
  | failure

/-- `check_host` inside `Coordinator.discover_agents`: on a successful
probe, split the probed `host:port`, override the body's self-reported
`host`/`port` with the probed ones, and yield the descriptor to register;
every failure (including a malformed `host:port` or port string, whose
`ValueError` is caught by the blanket handler) yields nothing. -/
def check_host (host_port : String) (out : ProbeOutcome) : Option AgentInfo :=
  match out with
  | .failure => none
  | .success data =>
    match py_split host_port ':' with
    | [h, p] =>
      match parse_nat p.data with
      | some port => some { data with host := h, port := port }
      | none => none
    | _ => none

/-- Fold step of discovery: probe one candidate and register the
resulting descriptor, if any. -/
def probe_and_register (probe : String → ProbeOutcome)
    (acc : List AgentInfo) (host_port : String) : List AgentInfo :=
  match check_host host_port (probe host_port) with
  | some info => register_agent acc info
  | none => acc

/-- `Coordinator.discover_agents`: resolve the candidate list, probe each
candidate and register the confirmed agents.  The source probes
concurrently under a semaphore and registers in completion order; with
unique agent ids the directory contents do not depend on that order, and
we model the fold in candidate order. -/
def discover_agents (env : Env) (config : DiscoveryConfig)
    (broadcast_hosts : List String) (scan_ips : List String)
    (host_range : Option (List String)) (probe : String → ProbeOutcome)
    (agents : List AgentInfo) : List AgentInfo :=
  (resolve_candidates env config broadcast_hosts scan_ips host_range).foldl
    (probe_and_register probe) agents

/-! ## Theorems -/

/-- C6: registering a descriptor whose id is already present replaces the
prior entry entirely with the new descriptor's values (last-write-wins),
leaves the directory size unchanged and the insertion order of all other
entries untouched, and preserves the one-entry-per-id invariant;
registering a fresh id appends exactly one entry and leaves all other
entries unchanged. -/
theorem register_agent_spec (agents : List AgentInfo) (a : AgentInfo)
    (hnodup : (agents.map (fun x => x.id)).Nodup) :
    ((register_agent agents a).map (fun x => x.id)).Nodup
    ∧ (∀ x ∈ register_agent agents a, x.id = a.id → x = a)
    ∧ a ∈ register_agent agents a
    ∧ ((register_agent agents a).filter (fun x => x.id != a.id)
        = agents.filter (fun x => x.id != a.id))
    ∧ ((∃ x ∈ agents, x.id = a.id) →
        (register_agent agents a).length = agents.length)
    ∧ ((∀ x ∈ agents, x.id ≠ a.id) →
        register_agent agents a = agents ++ [a]) := by
  by_cases hmem : agents.any (fun x => x.id == a.id)
  · have hreg : register_agent agents a
        = agents.map (fun x => if x.id == a.id then a else x) := by
      simp [register_agent, hmem]
    have hid : ∀ x ∈ agents, (if x.id == a.id then a else x).id = x.id := by
      intro x _
      by_cases h : x.id = a.id
      · simp [h]
      · simp [h]
    have hids : ((agents.map (fun x => if x.id == a.id then a else x)).map
        (fun x => x.id)) = agents.map (fun x => x.id) := by
      rw [List.map_map]
      exact List.map_congr_left hid
    obtain ⟨y, hy, hyid⟩ := List.any_eq_true.mp hmem
    have hyid' : y.id = a.id := by simpa using hyid
    refine ⟨?_, ?_, ?_, ?_, ?_, ?_⟩
    · rw [hreg, hids]; exact hnodup
    · intro x hx hxid
      rw [hreg] at hx
      obtain ⟨z, hz, hzx⟩ := List.mem_map.mp hx
      by_cases h : z.id = a.id
      · simpa [h] using hzx.symm
      · rw [if_neg (by simpa using h)] at hzx
        exact absurd (hzx ▸ hxid) h
    · rw [hreg]
      have hya : (if y.id == a.id then a else y) = a := by simp [hyid']
      have hmm : (if y.id == a.id then a else y)
          ∈ agents.map (fun x => if x.id == a.id then a else x) :=
        List.mem_map_of_mem _ hy
      rwa [hya] at hmm
    · rw [hreg, List.filter_map]
      have hcongr : ∀ x ∈ agents,
          ((fun x => x.id != a.id) ∘ (fun x => if x.id == a.id then a else x)) x
            = (fun x => x.id != a.id) x := by
        intro x _
        by_cases h : x.id = a.id
        · simp [h]
        · simp [h]
      rw [List.filter_congr hcongr]
      refine List.map_congr_left ?_ |>.trans (List.map_id _)
      intro x hx
      have : x.id ≠ a.id := by
        have := (List.mem_filter.mp hx).2
        simpa using this
      simp [this]
    · intro _
      rw [hreg, List.length_map]
    · intro hall
      exact absurd hyid' (hall y hy)
  · have hreg : register_agent agents a = agents ++ [a] := by
      simp [register_agent, hmem]
    have hnot : ∀ x ∈ agents, x.id ≠ a.id := by
      intro x hx
      have := List.any_eq_true.not.mp hmem
      push_neg at this
      have := this x hx
      simpa using this
    refine ⟨?_, ?_, ?_, ?_, ?_, ?_⟩
    · rw [hreg, List.map_append, List.nodup_append]
      refine ⟨hnodup, List.nodup_singleton _, ?_⟩
      intro i hi hj
      simp only [List.map_cons, List.map_nil, List.mem_singleton] at hj
      obtain ⟨x, hx, hxi⟩ := List.mem_map.mp hi
      exact hnot x hx (hxi.symm ▸ hj ▸ rfl)
    · intro x hx hxid
      rcases List.mem_append.mp (hreg ▸ hx) with h | h
      · exact absurd hxid (hnot x h)
      · simpa using h
    · rw [hreg]; exact List.mem_append_right _ (List.mem_singleton.mpr rfl)
    · rw [hreg, List.filter_append]
      simp
    · rintro ⟨x, hx, hxid⟩
      exact absurd hxid (hnot x hx)
    · intro _; exact hreg

def w6_a1 : AgentInfo :=
  { id := "host-Linux-5001", name := "alpha", os_type := "Linux",
    capabilities := ["bash"], permissions := [], host := "10.0.0.1",
    port := 5001, last_seen := 0, is_healthy := true }

def w6_a2 : AgentInfo :=
  { id := "host-Windows-5002", name := "beta", os_type := "Windows",
    capabilities := ["powershell"], permissions := [], host := "10.0.0.2",
    port := 5002, last_seen := 0, is_healthy := true }

def w6_a1' : AgentInfo :=
  { id := "host-Linux-5001", name := "alpha-restarted", os_type := "Linux",
    capabilities := ["bash", "file_operations"], permissions := [],
    host := "10.0.0.9", port := 5001, last_seen := 7, is_healthy := false }

/-- Witness for C6 at a concrete two-agent directory and a
re-registration of the first agent's id with different field values. -/
theorem register_agent_spec_witness :
    (([w6_a1, w6_a2].map (fun x => x.id)).Nodup ∧ True)
    ∧ (((register_agent [w6_a1, w6_a2] w6_a1').map (fun x => x.id)).Nodup
    ∧ (∀ x ∈ register_agent [w6_a1, w6_a2] w6_a1', x.id = w6_a1'.id → x = w6_a1')
    ∧ w6_a1' ∈ register_agent [w6_a1, w6_a2] w6_a1'
    ∧ ((register_agent [w6_a1, w6_a2] w6_a1').filter (fun x => x.id != w6_a1'.id)
        = [w6_a1, w6_a2].filter (fun x => x.id != w6_a1'.id))
    ∧ ((∃ x ∈ [w6_a1, w6_a2], x.id = w6_a1'.id) →
        (register_agent [w6_a1, w6_a2] w6_a1').length = [w6_a1, w6_a2].length)
    ∧ ((∀ x ∈ [w6_a1, w6_a2], x.id ≠ w6_a1'.id) →
        register_agent [w6_a1, w6_a2] w6_a1' = [w6_a1, w6_a2] ++ [w6_a1'])) :=
  ⟨⟨by decide, trivial⟩, register_agent_spec [w6_a1, w6_a2] w6_a1' (by decide)⟩

/-- C3: on any directory snapshot and any parsed command carrying a
string `target_os`, `select_agent` returns exactly the reference policy:
healthy agents only; no agent only when no healthy agent exists; for a
specific OS the first case-insensitive match in insertion order, else the
first healthy agent; for "any" the first healthy agent. -/
theorem select_from_healthy_eq_reference (healthy : List AgentInfo) (t : String) :
    select_from_healthy healthy (.str t) = .ok (select_reference_from healthy t) := by
  cases healthy with
  | nil => rfl
  | cons h rest =>
    by_cases ht : t = "any"
    · subst ht
      simp [select_from_healthy, select_reference_from, py_ne_lit]
    · have hne : py_ne_lit (.str t) "any" = true := by
        simp [py_ne_lit, ht]
      rcases hm : (h :: rest).filter (fun a => py_lower a.os_type == py_lower t)
        with _ | ⟨m, ms⟩ <;>
        simp [select_from_healthy, select_reference_from, hne, ht, hm]

theorem select_reference_from_mem (healthy : List AgentInfo) (t : String)
    (a : AgentInfo) (ha : select_reference_from healthy t = some a) : a ∈ healthy := by
  cases healthy with
  | nil => cases ha
  | cons h rest =>
    by_cases ht : t = "any"
    · subst ht
      simp only [select_reference_from, ne_eq, not_true_eq_false, if_false,
        Option.some.injEq] at ha
      exact ha ▸ List.mem_cons_self _ _
    · simp only [select_reference_from, ne_eq, ht, not_false_eq_true, if_true] at ha
      rcases hm : (h :: rest).filter (fun x => py_lower x.os_type == py_lower t)
        with _ | ⟨m, ms⟩ <;> rw [hm] at ha
      · cases ha; exact List.mem_cons_self _ _
      · cases ha
        have hmem : a ∈ (h :: rest).filter (fun x => py_lower x.os_type == py_lower t) := by
          rw [hm]; exact List.mem_cons_self _ _
        exact List.mem_of_mem_filter hmem

theorem select_reference_from_none_iff (healthy : List AgentInfo) (t : String) :
    select_reference_from healthy t = none ↔ healthy = [] := by
  cases healthy with
  | nil => simp [select_reference_from]
  | cons h rest =>
    constructor
    · intro hnone
      by_cases ht : t = "any"
      · subst ht
        simp [select_reference_from] at hnone
      · simp only [select_reference_from, ne_eq, ht, not_false_eq_true, if_true] at hnone
        rcases hm : (h :: rest).filter (fun x => py_lower x.os_type == py_lower t)
          with _ | ⟨m, ms⟩ <;> rw [hm] at hnone <;> cases hnone
    · intro he
      exact absurd he (List.cons_ne_nil _ _)

/-- C3: on any directory snapshot and any parsed command carrying a
string `target_os`, `select_agent` returns exactly the reference policy:
healthy agents only; no agent only when no healthy agent exists; for a
specific OS the first case-insensitive match in insertion order, else the
first healthy agent; for "any" the first healthy agent. -/
theorem select_agent_matches_reference (agents : List AgentInfo)
    (fs : List (String × PyVal)) (t : String)
    (hlookup : fs.lookup "target_os" = some (.str t)) :
    select_agent agents (.dict fs) = .ok (select_reference agents t)
    ∧ (∀ a, select_reference agents t = some a → a.is_healthy = true)
    ∧ (select_reference agents t = none
        ↔ agents.filter (fun a => a.is_healthy) = []) := by
  have hget : dict_get fs "target_os" (.str "any") = .str t := by
    simp [dict_get, hlookup]
  refine ⟨?_, ?_, ?_⟩
  · simp only [select_agent, hget]
    exact select_from_healthy_eq_reference _ t
  · intro a ha
    have hmem : a ∈ agents.filter (fun x => x.is_healthy) :=
      select_reference_from_mem _ t a ha
    simpa using (List.mem_filter.mp hmem).2
  · exact select_reference_from_none_iff _ t

def w3_linux : AgentInfo :=
  { id := "l1", name := "linux-agent", os_type := "Linux",
    capabilities := ["bash"], permissions := [], host := "10.0.0.1",
    port := 5001, last_seen := 0, is_healthy := true }

def w3_windows : AgentInfo :=
  { id := "w1", name := "windows-agent", os_type := "Windows",
    capabilities := ["powershell"], permissions := [], host := "10.0.0.2",
    port := 5002, last_seen := 0, is_healthy := true }

/-- Witness for C3: with one healthy Linux and one healthy Windows agent
and a parsed command targeting "windows", selection agrees with the
reference policy (which picks the Windows agent). -/
theorem select_agent_matches_reference_witness :
    select_agent [w3_linux, w3_windows]
        (.dict [("action", .str "process_info"), ("target_os", .str "windows")])
      = .ok (select_reference [w3_linux, w3_windows] "windows")
    ∧ (∀ a, select_reference [w3_linux, w3_windows] "windows" = some a →
        a.is_healthy = true)
    ∧ (select_reference [w3_linux, w3_windows] "windows" = none
        ↔ [w3_linux, w3_windows].filter (fun a => a.is_healthy) = []) :=
  select_agent_matches_reference [w3_linux, w3_windows]
    [("action", .str "process_info"), ("target_os", .str "windows")]
    "windows" rfl

/-- C2 (amended): whenever agent selection yields no agent,
`execute_command` returns a failure `CommandResult` with
`agent_id = "none"`, `execution_time_ms = 0` and error message
"No healthy agents available" (capital N, as written in the source),
leaves the state — in particular the command history — unchanged, and
the result does not depend on the dispatch outcome: no HTTP dispatch is
consulted. -/
theorem execute_command_no_agent (userInput : String) (outcome : TranslatorOutcome)
    (dispatch dispatch' : DispatchOutcome) (now : Int) (st : ExecState)
    (hsel : select_agent st.agents (parse_command userInput outcome) = .ok none) :
    execute_command userInput outcome dispatch now st
      = .ok ({ success := false, error := some "No healthy agents available",
               execution_time_ms := 0, command := userInput, agent_id := "none" }, st)
    ∧ execute_command userInput outcome dispatch now st
      = execute_command userInput outcome dispatch' now st := by
  constructor <;> simp [execute_command, hsel]

/-- C2 fails as literally stated: the error message carried by the
no-agent failure result is "No healthy agents available", not the claimed
"no healthy agents available". -/
theorem execute_command_no_agent_counterexample :
    (execute_command "x" .apiError (.exc "boom") 0
        { agents := [], command_history := [] }).toOption.map (fun p => p.1.error)
      = some (some "No healthy agents available")
    ∧ some (some "No healthy agents available")
      ≠ some (some "no healthy agents available") := by
  exact ⟨rfl, by decide⟩

/-- Witness for C2 (amended) at an empty directory: the failure result is
returned, the state is unchanged, and an entirely different dispatch
outcome gives the same answer. -/
theorem execute_command_no_agent_witness :
    execute_command "list files" .apiError (.exc "boom") 0
        { agents := [], command_history := [] }
      = .ok ({ success := false, error := some "No healthy agents available",
               execution_time_ms := 0, command := "list files", agent_id := "none" },
             { agents := [], command_history := [] })
    ∧ execute_command "list files" .apiError (.exc "boom") 0
        { agents := [], command_history := [] }
      = execute_command "list files" .apiError (.response 500 (.error "e") "oops") 0
          { agents := [], command_history := [] } :=
  execute_command_no_agent "list files" .apiError (.exc "boom")
    (.response 500 (.error "e") "oops") 0 { agents := [], command_history := [] } rfl

/-- Translator outcomes on which `execute_command` cannot raise: every
failure outcome (the fallback dict always carries "command" and a string
"target_os"), and a success whose JSON value is an object that has a
"command" key and whose "target_os" entry, if present, is a string. -/
def translator_output_safe : TranslatorOutcome → Prop
  | .success v =>
    match v with
    | .dict fs =>
      (fs.lookup "command").isSome = true
      ∧ (fs.lookup "target_os" = none ∨ ∃ t, fs.lookup "target_os" = some (.str t))
    | _ => False
  | _ => True

theorem parse_command_safe (u : String) (outcome : TranslatorOutcome)
    (h : translator_output_safe outcome) :
    ∃ fs, parse_command u outcome = .dict fs
      ∧ (fs.lookup "command").isSome = true
      ∧ ∃ t, dict_get fs "target_os" (.str "any") = .str t := by
  cases outcome with
  | success v =>
    cases v with
    | dict fs =>
      obtain ⟨hcmd, htos⟩ := h
      refine ⟨fs, rfl, hcmd, ?_⟩
      rcases htos with hn | ⟨t, ht⟩
      · exact ⟨"any", by simp [dict_get, hn]⟩
      · exact ⟨t, by simp [dict_get, ht]⟩
    | null => exact absurd h not_false
    | bool b => exact absurd h not_false
    | int n => exact absurd h not_false
    | str s => exact absurd h not_false
    | list xs => exact absurd h not_false
  | apiError => exact ⟨_, rfl, rfl, ⟨"any", rfl⟩⟩
  | emptyResponse => exact ⟨_, rfl, rfl, ⟨"any", rfl⟩⟩
  | malformed => exact ⟨_, rfl, rfl, ⟨"any", rfl⟩⟩

/-- C1 (amended): `execute_command` returns a `CommandResult` without
raising for every dispatch outcome and every translator outcome that is
an API error, an empty response, malformed (non-JSON) output, or a
success whose JSON object contains a "command" key and whose
"target_os" entry, if present, is a string.  (Discovery and the health
sweep are total by construction in this model, mirroring the source's
per-candidate and per-attempt exception handlers.) -/
theorem execute_command_total (u : String) (outcome : TranslatorOutcome)
    (d : DispatchOutcome) (now : Int) (st : ExecState)
    (h : translator_output_safe outcome) :
    ∃ r st', execute_command u outcome d now st = .ok (r, st') := by
  obtain ⟨fs, hp, hcmd, t, htos⟩ := parse_command_safe u outcome h
  obtain ⟨s, hsel⟩ : ∃ s, select_agent st.agents (parse_command u outcome) = .ok s := by
    rw [hp]
    simp only [select_agent, htos]
    exact ⟨_, select_from_healthy_eq_reference _ t⟩
  obtain ⟨c, hc⟩ := Option.isSome_iff_exists.mp hcmd
  have hpi : py_index (parse_command u outcome) "command" = .ok c := by
    rw [hp]; simp only [py_index, hc]
  cases s with
  | none =>
    simp only [execute_command, hsel]
    exact ⟨_, _, rfl⟩
  | some agent =>
    cases d with
    | exc m =>
      simp only [execute_command, hsel, hpi]
      exact ⟨_, _, rfl⟩
    | response status body text =>
      by_cases hstat : status = 200
      · subst hstat
        cases body with
        | ok r =>
          simp only [execute_command, hsel, hpi, if_pos rfl]
          exact ⟨_, _, rfl⟩
        | error m =>
          simp only [execute_command, hsel, hpi, if_pos rfl]
          exact ⟨_, _, rfl⟩
      · simp only [execute_command, hsel, hpi, if_neg hstat]
        exact ⟨_, _, rfl⟩

def w1_agent : AgentInfo :=
  { id := "a1", name := "agent-one", os_type := "Linux", capabilities := ["bash"],
    permissions := [], host := "10.0.0.1", port := 5001, last_seen := 0,
    is_healthy := true }

/-- C1 fails as literally stated: with one healthy agent registered, a
translator success whose output is the valid JSON object with no fields
(no "command" key) makes `execute_command` escape with a `KeyError`
instead of returning a `CommandResult`: the source evaluates
`parsed_command["command"]` outside any exception handler. -/
theorem execute_command_total_counterexample :
    execute_command "x" (.success (.dict [])) (.exc "boom") 0
        { agents := [w1_agent], command_history := [] }
      = .error "KeyError: command" := rfl

/-- Witness for C1 (amended) on a failing translator call against one
healthy agent and a transport error on dispatch. -/
theorem execute_command_total_witness :
    ∃ r st', execute_command "list files" .apiError (.exc "boom") 0
        { agents := [w1_agent], command_history := [] } = .ok (r, st') :=
  execute_command_total "list files" .apiError (.exc "boom") 0
    { agents := [w1_agent], command_history := [] } trivial

/-- C9 (amended): whenever `execute_command` returns (rather than
raising), the new history extends the old one (entries are never mutated
or removed), and it grows by exactly one entry precisely when selection
yielded an agent and the dispatch returned HTTP 200 with a body that
parses into a `CommandResult`; on selection failure, a non-200 response,
a transport-level exception, or a 200 response with an unparseable body,
the history is unchanged. -/
theorem execute_command_history (u : String) (outcome : TranslatorOutcome)
    (d : DispatchOutcome) (now : Int) (st : ExecState)
    (r : CommandResult) (st' : ExecState)
    (h : execute_command u outcome d now st = .ok (r, st')) :
    ∃ tail, st'.command_history = st.command_history ++ tail
      ∧ tail.length
          = (if selection_succeeded u outcome st && dispatch_ok d then 1 else 0) := by
  rcases hsel : select_agent st.agents (parse_command u outcome) with e | s
  · simp only [execute_command, hsel] at h
    cases h
  · cases s with
    | none =>
      have hss : selection_succeeded u outcome st = false := by
        simp [selection_succeeded, hsel]
      simp only [execute_command, hsel, Except.ok.injEq, Prod.mk.injEq] at h
      refine ⟨[], ?_, ?_⟩
      · rw [← h.2]; simp
      · simp [hss]
    | some agent =>
      have hss : selection_succeeded u outcome st = true := by
        simp [selection_succeeded, hsel]
      rcases hpi : py_index (parse_command u outcome) "command" with e | c
      · simp only [execute_command, hsel, hpi] at h
        cases h
      · cases d with
        | exc m =>
          simp only [execute_command, hsel, hpi, Except.ok.injEq, Prod.mk.injEq] at h
          obtain ⟨-, rfl⟩ := h
          refine ⟨[], by simp, ?_⟩
          simp [hss, dispatch_ok]
        | response status body text =>
          by_cases hstat : status = 200
          · subst hstat
            cases body with
            | ok result =>
              simp [execute_command, hsel, hpi] at h
              obtain ⟨-, rfl⟩ := h
              refine ⟨[{ timestamp := now, user_input := u,
                         parsed_command := parse_command u outcome,
                         agent_used := agent.name, result := result }], rfl, ?_⟩
              simp [hss, dispatch_ok]
            | error m =>
              simp [execute_command, hsel, hpi] at h
              obtain ⟨-, rfl⟩ := h
              refine ⟨[], by simp, ?_⟩
              simp [hss, dispatch_ok]
          · simp [execute_command, hsel, hpi, hstat] at h
            obtain ⟨-, rfl⟩ := h
            refine ⟨[], by simp, ?_⟩
            simp [hss, dispatch_ok, hstat]

/-- C9 fails as literally stated: a dispatch that returns HTTP 200 whose
body cannot be decoded into a `CommandResult` (the decode error is
caught and synthesised into a failure result) appends nothing to the
history, so "the history grows by one if and only if the dispatch
returns HTTP 200" does not hold. -/
theorem execute_command_history_counterexample :
    execute_command "x" .apiError
        (.response 200 (.error "unexpected mimetype") "") 0
        { agents := [w1_agent], command_history := [] }
      = .ok ({ success := false,
               error := some "Failed to communicate with agent: unexpected mimetype",
               execution_time_ms := 0, command := "x", agent_id := "a1" },
             { agents := [w1_agent], command_history := [] }) := rfl

def w9_result : CommandResult :=
  { success := true, output := some "ok", execution_time_ms := 5,
    command := "ls -la", agent_id := "a1" }

def w9_state : ExecState := { agents := [w1_agent], command_history := [] }

def w9_dispatch : DispatchOutcome := .response 200 (.ok w9_result) ""

def w9_state' : ExecState :=
  { agents := [w1_agent],
    command_history :=
      [{ timestamp := 3, user_input := "list files",
         parsed_command := fallback_parse "list files" "Direct command execution",
         agent_used := "agent-one", result := w9_result }] }

/-- Witness for C9 (amended): a successful 200 dispatch with a decodable
body against one healthy agent grows the history by exactly one entry. -/
theorem execute_command_history_witness :
    ∃ tail, w9_state'.command_history = w9_state.command_history ++ tail
      ∧ tail.length
          = (if selection_succeeded "list files" .apiError w9_state
                && dispatch_ok w9_dispatch then 1 else 0) :=
  execute_command_history "list files" .apiError w9_dispatch 3 w9_state
    w9_result w9_state' rfl

theorem first_success_within_three (f : Nat → AttemptResult) :
    first_success_within f 0 3
      = if attempt_ok (f 0) then some 0
        else if attempt_ok (f 1) then some 1
        else if attempt_ok (f 2) then some 2
        else none := by
  simp only [first_success_within]

theorem first_success_within_none_iff (f : Nat → AttemptResult) :
    first_success_within f 0 3 = none ↔ ∀ j, j < 3 → attempt_ok (f j) = false := by
  rw [first_success_within_three]
  constructor
  · intro h j hj
    by_cases h0 : attempt_ok (f 0)
    · simp [h0] at h
    · by_cases h1 : attempt_ok (f 1)
      · simp [h0, h1] at h
      · by_cases h2 : attempt_ok (f 2)
        · simp [h0, h1, h2] at h
        · interval_cases j
          · simpa using h0
          · simpa using h1
          · simpa using h2
  · intro h
    have h0 := h 0 (by omega)
    have h1 := h 1 (by omega)
    have h2 := h 2 (by omega)
    simp [h0, h1, h2]

theorem first_success_within_some (f : Nat → AttemptResult) (j : Nat)
    (h : first_success_within f 0 3 = some j) :
    j < 3 ∧ attempt_ok (f j) = true ∧ ∀ k, k < j → attempt_ok (f k) = false := by
  rw [first_success_within_three] at h
  by_cases h0 : attempt_ok (f 0)
  · rw [if_pos h0] at h
    cases h
    exact ⟨by omega, h0, fun k hk => absurd hk (Nat.not_lt_zero k)⟩
  · rw [if_neg h0] at h
    by_cases h1 : attempt_ok (f 1)
    · rw [if_pos h1] at h
      cases h
      refine ⟨by omega, h1, fun k hk => ?_⟩
      interval_cases k
      simpa using h0
    · rw [if_neg h1] at h
      by_cases h2 : attempt_ok (f 2)
      · rw [if_pos h2] at h
        cases h
        refine ⟨by omega, h2, fun k hk => ?_⟩
        interval_cases k
        · simpa using h0
        · simpa using h1
      · rw [if_neg h2] at h
        cases h

theorem check_agent_spec (f : Nat → AttemptResult) (now : Int) (a : AgentInfo) :
    attempts_made f ≤ 3
    ∧ (∀ j, first_success_within f 0 3 = some j →
        j < 3 ∧ attempt_ok (f j) = true
        ∧ (∀ k, k < j → attempt_ok (f k) = false)
        ∧ attempts_made f = j + 1
        ∧ (check_agent f now a).is_healthy = true
        ∧ (check_agent f now a).last_seen = now)
    ∧ ((∀ j, j < 3 → attempt_ok (f j) = false) →
        (check_agent f now a).is_healthy = false
        ∧ (check_agent f now a).last_seen = a.last_seen) := by
  refine ⟨?_, ?_, ?_⟩
  · rcases hf : first_success_within f 0 3 with _ | j
    · simp [attempts_made, hf]
    · have := (first_success_within_some f j hf).1
      simp only [attempts_made, hf]
      omega
  · intro j hj
    obtain ⟨hj3, hok, hprev⟩ := first_success_within_some f j hj
    exact ⟨hj3, hok, hprev, by simp [attempts_made, hj], by simp [check_agent, hj],
      by simp [check_agent, hj]⟩
  · intro hall
    have hnone := (first_success_within_none_iff f).mpr hall
    exact ⟨by simp [check_agent, hnone], by simp [check_agent, hnone]⟩

/-- C4 (amended): in one health sweep, every registered agent's result
is determined only by its own probe attempts (the check of one agent
never affects the others); at most 3 attempts are made; the first
attempt that returns HTTP 200 *with a JSON-decodable body*
(`attempt_ok`) short-circuits the loop, marks the agent healthy and
refreshes `last_seen` to now; if all 3 attempts fail — timeout,
connection error, non-200, or a 200 response whose body cannot be
decoded as JSON — the agent is marked unhealthy and its `last_seen` is
unchanged. -/
theorem health_sweep_per_agent (att : String → Nat → AttemptResult) (now : Int)
    (agents : List AgentInfo) (i : Nat) (h : i < agents.length)
    (h2 : i < (health_sweep att now agents).length) :
    (health_sweep att now agents).get ⟨i, h2⟩
      = check_agent (att (agents.get ⟨i, h⟩).id) now (agents.get ⟨i, h⟩)
    ∧ attempts_made (att (agents.get ⟨i, h⟩).id) ≤ 3
    ∧ (∀ j, first_success_within (att (agents.get ⟨i, h⟩).id) 0 3 = some j →
        j < 3 ∧ attempt_ok (att (agents.get ⟨i, h⟩).id j) = true
        ∧ (∀ k, k < j → attempt_ok (att (agents.get ⟨i, h⟩).id k) = false)
        ∧ attempts_made (att (agents.get ⟨i, h⟩).id) = j + 1
        ∧ (check_agent (att (agents.get ⟨i, h⟩).id) now (agents.get ⟨i, h⟩)).is_healthy
            = true
        ∧ (check_agent (att (agents.get ⟨i, h⟩).id) now (agents.get ⟨i, h⟩)).last_seen
            = now)
    ∧ ((∀ j, j < 3 → attempt_ok (att (agents.get ⟨i, h⟩).id j) = false) →
        (check_agent (att (agents.get ⟨i, h⟩).id) now (agents.get ⟨i, h⟩)).is_healthy
            = false
        ∧ (check_agent (att (agents.get ⟨i, h⟩).id) now (agents.get ⟨i, h⟩)).last_seen
            = (agents.get ⟨i, h⟩).last_seen) := by
  have hget : (health_sweep att now agents).get ⟨i, h2⟩
      = check_agent (att (agents.get ⟨i, h⟩).id) now (agents.get ⟨i, h⟩) := by
    simp [health_sweep, List.get_eq_getElem, List.getElem_map]
  obtain ⟨ha, hb, hc⟩ :=
    check_agent_spec (att (agents.get ⟨i, h⟩).id) now (agents.get ⟨i, h⟩)
  exact ⟨hget, ha, hb, hc⟩

def w4_agent : AgentInfo :=
  { id := "h1", name := "flaky", os_type := "Linux", capabilities := [],
    permissions := [], host := "10.0.0.3", port := 5003, last_seen := 100,
    is_healthy := false }

def w4_att : String → Nat → AttemptResult :=
  fun _ n => if n = 2 then .ok200 else .exc

/-- Witness for C4: an agent whose probe fails on attempts 1 and 2 and
succeeds on attempt 3 ends the sweep healthy with `last_seen` updated. -/
theorem health_sweep_per_agent_witness :
    (health_sweep w4_att 200 [w4_agent]).get ⟨0, by decide⟩
      = check_agent (w4_att ([w4_agent].get ⟨0, by decide⟩).id) 200
          ([w4_agent].get ⟨0, by decide⟩)
    ∧ attempts_made (w4_att ([w4_agent].get ⟨0, by decide⟩).id) ≤ 3
    ∧ (∀ j, first_success_within (w4_att ([w4_agent].get ⟨0, by decide⟩).id) 0 3
          = some j →
        j < 3 ∧ attempt_ok (w4_att ([w4_agent].get ⟨0, by decide⟩).id j) = true
        ∧ (∀ k, k < j →
            attempt_ok (w4_att ([w4_agent].get ⟨0, by decide⟩).id k) = false)
        ∧ attempts_made (w4_att ([w4_agent].get ⟨0, by decide⟩).id) = j + 1
        ∧ (check_agent (w4_att ([w4_agent].get ⟨0, by decide⟩).id) 200
            ([w4_agent].get ⟨0, by decide⟩)).is_healthy = true
        ∧ (check_agent (w4_att ([w4_agent].get ⟨0, by decide⟩).id) 200
            ([w4_agent].get ⟨0, by decide⟩)).last_seen = 200)
    ∧ ((∀ j, j < 3 →
          attempt_ok (w4_att ([w4_agent].get ⟨0, by decide⟩).id j) = false) →
        (check_agent (w4_att ([w4_agent].get ⟨0, by decide⟩).id) 200
            ([w4_agent].get ⟨0, by decide⟩)).is_healthy = false
        ∧ (check_agent (w4_att ([w4_agent].get ⟨0, by decide⟩).id) 200
            ([w4_agent].get ⟨0, by decide⟩)).last_seen
          = ([w4_agent].get ⟨0, by decide⟩).last_seen) :=
  health_sweep_per_agent w4_att 200 [w4_agent] 0 (by decide) (by decide)

def w4c_agent : AgentInfo :=
  { id := "h2", name := "bad-body", os_type := "Linux", capabilities := [],
    permissions := [], host := "10.0.0.4", port := 5004, last_seen := 100,
    is_healthy := true }

def w4c_att : Nat → AttemptResult := fun _ => .ok200BadBody

/-- C4 fails as literally stated: an agent whose `/health` endpoint
answers HTTP 200 on every one of the 3 attempts, but with a body that
`resp.json()` cannot decode, ends the sweep marked unhealthy with
`last_seen` unchanged — the decode error is raised before the agent is
marked healthy and is caught as a failed attempt — contradicting "the
first HTTP-200 response marks it healthy and sets its lastSeen" and the
claim's timeout / connection-error / non-200 failure taxonomy. -/
theorem health_sweep_per_agent_counterexample :
    attempt_http200 (w4c_att 0) = true
    ∧ attempt_http200 (w4c_att 1) = true
    ∧ attempt_http200 (w4c_att 2) = true
    ∧ (health_sweep (fun _ => w4c_att) 200 [w4c_agent]).get ⟨0, by decide⟩
        = check_agent w4c_att 200 w4c_agent
    ∧ (check_agent w4c_att 200 w4c_agent).is_healthy = false
    ∧ (check_agent w4c_att 200 w4c_agent).last_seen = 100 := by
  decide

/-- C5: a `health_check_agents` call with `force = false` made fewer
than 10 seconds after the start of the last sweep returns the state
unchanged (in particular no agent is probed: the result does not depend
on the probe outcomes), while `force = true` always performs a sweep and
records its start time, regardless of elapsed time. -/
theorem health_check_rate_limit (now : Int)
    (att att' : String → Nat → AttemptResult) (st : HealthState)
    (hlt : now - st.last_health_check < 10) :
    health_check_agents false now att st = st
    ∧ health_check_agents false now att st = health_check_agents false now att' st
    ∧ health_check_agents true now att st
        = { agents := health_sweep att now st.agents, last_health_check := now } := by
  have h1 : health_check_agents false now att st = st := by
    simp [health_check_agents, hlt]
  have h2 : health_check_agents false now att' st = st := by
    simp [health_check_agents, hlt]
  refine ⟨h1, h1.trans h2.symm, ?_⟩
  simp [health_check_agents]

def w5_state : HealthState := { agents := [w4_agent], last_health_check := 195 }

/-- Witness for C5 at a concrete state: 5 seconds after the last sweep,
an unforced call is a no-op independent of the probe outcomes, and a
forced call sweeps. -/
theorem health_check_rate_limit_witness :
    health_check_agents false 200 w4_att w5_state = w5_state
    ∧ health_check_agents false 200 w4_att w5_state
        = health_check_agents false 200 (fun _ _ => .exc) w5_state
    ∧ health_check_agents true 200 w4_att w5_state
        = { agents := health_sweep w4_att 200 w5_state.agents,
            last_health_check := 200 } :=
  health_check_rate_limit 200 w4_att (fun _ _ => .exc) w5_state (by decide)

/-- C7: when no explicit host list is passed and the environment
host-list override is set to a non-empty comma-separated list of
already-trimmed `host:port` pairs, exactly those pairs form the candidate
list, and discovery probes exactly them: the result does not depend on
the configuration (named network configs, manual hosts), the broadcast
replies, or the subnet scan IPs — those steps are all skipped, as is the
localhost fallback. -/
theorem discover_env_override (env : Env) (config : DiscoveryConfig)
    (broadcast_hosts scan_ips : List String) (probe : String → ProbeOutcome)
    (agents : List AgentInfo) (s : String) (pairs : List String)
    (hs : env.agent_discovery_hosts = some s)
    (hne : (s == "") = false)
    (hsplit : py_split s ',' = pairs)
    (htrim : ∀ p ∈ pairs, py_strip p = p) :
    resolve_candidates env config broadcast_hosts scan_ips none = pairs
    ∧ discover_agents env config broadcast_hosts scan_ips none probe agents
        = pairs.foldl (probe_and_register probe) agents := by
  have h1 : resolve_candidates env config broadcast_hosts scan_ips none = pairs := by
    simp only [resolve_candidates, Option.getD_none, List.isEmpty_nil, if_true, hs,
      env_truthy, hne, Bool.not_false, Option.getD_some, hsplit]
    exact (List.map_congr_left htrim).trans (List.map_id _)
  exact ⟨h1, by simp only [discover_agents, h1]⟩

def w7_env : Env :=
  { agent_discovery_hosts := some "a:1,b:2", agent_network_config := some "office",
    agent_use_broadcast := some "true", agent_scan_network := some "true" }

def w7_config : DiscoveryConfig :=
  { discovery_settings := { manual_hosts := ["m:5"] },
    network_configs := [("office", ["x:9"])] }

/-- Witness for C7: with the override set to "a:1,b:2" and every
competing source populated (named config selected, manual hosts,
broadcast replies, scan IPs), exactly a:1 and b:2 are resolved and
probed. -/
theorem discover_env_override_witness :
    resolve_candidates w7_env w7_config ["c:3"] ["9.9.9.9"] none = ["a:1", "b:2"]
    ∧ discover_agents w7_env w7_config ["c:3"] ["9.9.9.9"] none
          (fun _ => ProbeOutcome.failure) []
        = ["a:1", "b:2"].foldl (probe_and_register (fun _ => ProbeOutcome.failure)) [] :=
  discover_env_override w7_env w7_config ["c:3"] ["9.9.9.9"]
    (fun _ => ProbeOutcome.failure) [] "a:1,b:2" ["a:1", "b:2"]
    rfl (by decide) (by decide) (by decide)

/-- C8: whenever the capability probe of a candidate `host:port` returns
HTTP 200 with a parseable body, the descriptor handed to registration
carries the probed host and port, whatever `host`/`port` values the agent
self-reported in the body; all other descriptor fields come from the
body. -/
theorem check_host_address_authority (host_port h ps : String) (p : Nat)
    (data : AgentInfo) (selfHost : String) (selfPort : Nat)
    (probe : String → ProbeOutcome) (agents : List AgentInfo)
    (hsplit : py_split host_port ':' = [h, ps])
    (hport : parse_nat ps.data = some p)
    (hprobe : probe host_port
        = .success { data with host := selfHost, port := selfPort }) :
    check_host host_port (.success { data with host := selfHost, port := selfPort })
      = some { data with host := h, port := p }
    ∧ probe_and_register probe agents host_port
      = register_agent agents { data with host := h, port := p } := by
  have h1 : check_host host_port
      (.success { data with host := selfHost, port := selfPort })
      = some { data with host := h, port := p } := by
    simp only [check_host, hsplit, hport]
  exact ⟨h1, by simp only [probe_and_register, hprobe, h1]⟩

def w8_body : AgentInfo :=
  { id := "nat-agent", name := "behind-nat", os_type := "Windows",
    capabilities := ["powershell"], permissions := [], host := "127.0.0.1",
    port := 9999, last_seen := 0, is_healthy := true }

/-- Witness for C8: probing `10.0.0.5:5001` against a body that
self-reports `127.0.0.1:9999` registers a descriptor with host
`10.0.0.5` and port `5001`. -/
theorem check_host_address_authority_witness :
    check_host "10.0.0.5:5001"
        (.success { w8_body with host := "127.0.0.1", port := 9999 })
      = some { w8_body with host := "10.0.0.5", port := 5001 }
    ∧ probe_and_register
        (fun _ => .success { w8_body with host := "127.0.0.1", port := 9999 }) []
        "10.0.0.5:5001"
      = register_agent [] { w8_body with host := "10.0.0.5", port := 5001 } :=
  check_host_address_authority "10.0.0.5:5001" "10.0.0.5" "5001" 5001 w8_body
    "127.0.0.1" 9999
    (fun _ => .success { w8_body with host := "127.0.0.1", port := 9999 }) []
    (by decide) (by decide) rfl

/-- C10: passing an explicitly empty host list to discovery is the same
as passing no list at all — the source guards with `if not host_range:`,
which is true for both `None` and `[]` — so the full resolution
precedence runs rather than probing nothing. -/
theorem discover_empty_host_range (env : Env) (config : DiscoveryConfig)
    (broadcast_hosts scan_ips : List String) (probe : String → ProbeOutcome)
    (agents : List AgentInfo) :
    resolve_candidates env config broadcast_hosts scan_ips (some [])
      = resolve_candidates env config broadcast_hosts scan_ips none
    ∧ discover_agents env config broadcast_hosts scan_ips (some []) probe agents
      = discover_agents env config broadcast_hosts scan_ips none probe agents := by
  have h1 : resolve_candidates env config broadcast_hosts scan_ips (some [])
      = resolve_candidates env config broadcast_hosts scan_ips none := rfl
  exact ⟨h1, by simp only [discover_agents, h1]⟩

end Alfred
